import Mathlib

/-!
CPass0 calibration train: stage selection in `main_runCalibTrain`.

A shallow embedding of `DataProc/CPass0/main_runCalibTrain.C`.  The macro looks up
the GRP object of the run, turns its detector mask into the detector list string,
adds the detector calibration tasks according to substring tests on that string and
to one environment switch, adds the `cleanGeom` task, and runs the analysis.

The calls into the framework are observed as a trace of events; the values the
framework hands back (the CDB entry, the environment, the status of `InitAnalysis`)
are the fields of `World`.
-/

namespace CalibTrain

/-! ## Strings -/

/-- Substring test of `TString::Contains(const char*)`: the pattern occurs at some
position of the string (exact case); the empty pattern occurs at position 0. -/
def Contains : List Char → List Char → Bool
  | [], pat => pat.isPrefixOf []
  | c :: s, pat => pat.isPrefixOf (c :: s) || Contains s pat

/-- White space of the C locale, as skipped by `strtol`. -/
def isspace (c : Char) : Bool :=
  c.toNat = 32 || (9 ≤ c.toNat && c.toNat ≤ 13)

/-- Value of the longest run of decimal digits at the head of the input,
accumulated onto `acc`. -/
def digitsValue : List Char → Nat → Nat
  | [], acc => acc
  | c :: cs, acc =>
    if 48 ≤ c.toNat ∧ c.toNat ≤ 57 then digitsValue cs (10 * acc + (c.toNat - 48)) else acc

/-- The C library `strtol(s, 0, 10)` on a 64-bit `long`: leading white space, an
optional sign, decimal digits; the result saturates at `LONG_MIN`/`LONG_MAX`. -/
def strtol (s : List Char) : Int :=
  match s.dropWhile isspace with
  | '-' :: r => max (-(digitsValue r 0 : Int)) (-9223372036854775808)
  | '+' :: r => min (digitsValue r 0 : Int) 9223372036854775807
  | r => min (digitsValue r 0 : Int) 9223372036854775807

/-- Conversion of a `long` to a 32-bit `int` (two's complement wrap-around). -/
def toInt32 (x : Int) : Int := (x + 2147483648) % 4294967296 - 2147483648

/-- The C library `atoi`, that is `(int) strtol(s, 0, 10)`. -/
def atoi (s : String) : Int := toInt32 (strtol s.toList)

/-! ## The detector list of a detector mask (AliRoot `AliDAQ`) -/

/-- Number of entries of `AliDAQ::fgkDetectorName`. -/
def kNDetectors : Nat := 25

/-- Bit of the HLT in the detector pattern. -/
def kHLTId : Nat := 30

/-- The table `AliDAQ::fgkDetectorName` of the AliRoot library the macro calls into:
the name of the detector of each bit of the detector pattern (the last entry is the
HLT).  The library is not part of the repository; the plan depends on the table only
through the five names `ITSSPD`, `TPC`, `TRD`, `TOF` and `T0`, none of which
occurs inside another name. -/
def fgkDetectorName : List String :=
  ["ITSSPD", "ITSSDD", "ITSSSD", "TPC", "TRD", "TOF", "HMPID", "PHOS", "CPV", "PMD",
   "MUONTRK", "MUONTRG", "FMD", "T0", "VZERO", "ZDC", "ACORDE", "TRG", "EMCAL",
   "DAQ_TEST", "EMPTY", "AD", "MFT", "FIT", "HLT"]

/-- Entry `i` of the name table, as characters. -/
def detectorName (i : Nat) : List Char := (fgkDetectorName.getD i "").toList

/-- Bit `iDet` of a detector pattern: `(detectorPattern >> iDet) & 0x1`. -/
def patternBit (detectorPattern iDet : Nat) : Bool := (detectorPattern >>> iDet) % 2 = 1

/-- The library routine `AliDAQ::ListOfTriggeredDetectors`: the names of the detectors
whose bit is set, each followed by a blank, in bit order over the first
`kNDetectors - 1` bits; then `HLT` when bit `kHLTId` is set. -/
def ListOfTriggeredDetectors (detectorPattern : Nat) : List Char :=
  let detList := (List.range (kNDetectors - 1)).foldl
    (fun acc iDet =>
      if patternBit detectorPattern iDet then acc ++ detectorName iDet ++ [' '] else acc) []
  if patternBit detectorPattern kHLTId then detList ++ detectorName (kNDetectors - 1)
  else detList

/-- The names, each followed by a blank, of the bits of the list `l` that `b` holds set:
the loop of `ListOfTriggeredDetectors` as a concatenation of segments. -/
def segments (b : Nat → Bool) : List Nat → List Char
  | [] => []
  | i :: l => (if b i then detectorName i ++ [' '] else []) ++ segments b l

/-- Presence of a detector in a detector mask: the bit at the position of its name in
the name table (for the detectors other than the HLT). -/
def detectorPresent (mask : Nat) (name : String) : Bool :=
  patternBit mask (fgkDetectorName.indexOf name)

/-! ## Tasks, stages and the observable run -/

/-- The stages of the calibration train, by name. -/
inductive Stage
  | TPC | TRD | T0 | MeanVertex | SDD | TOF | CleanGeom
  deriving DecidableEq, Repr

/-- How the SDD task is set up: the arguments `useTPCcrv` and the fourth argument of
`AddTaskSDDCalib` (20 or -1), and the two setters applied to the returned task. -/
structure SDDSetup where
  useTPCcrv : Bool
  tofArgument : Int
  useITSstandaloneTracks : Bool
  minPtLowered : Bool
  deriving DecidableEq, Repr

/-- A task as added to the analysis manager, with the arguments given by the macro. -/
inductive Task
  | TPCCalib
  | TRDCalib (runNumber : Int)
  | T0Calib (runNumber : Int)
  | MeanVertexCalib
  | SDDCalib (setup : SDDSetup)
  | TOFAnalysisTaskCalibPass0
  | cleanGeom
  deriving DecidableEq, Repr

/-- The stage a task belongs to. -/
def Task.stage : Task → Stage
  | .TPCCalib => .TPC
  | .TRDCalib _ => .TRD
  | .T0Calib _ => .T0
  | .MeanVertexCalib => .MeanVertex
  | .SDDCalib _ => .SDD
  | .TOFAnalysisTaskCalibPass0 => .TOF
  | .cleanGeom => .CleanGeom

/-- The GRP object of a run, as far as the macro reads it: the detector mask and
whether the first L3 current reading is below 300. -/
structure AliGRPObject where
  detectorMask : Nat
  l3CurrentBelow300 : Bool
  deriving DecidableEq, Repr

/-- An object stored in a CDB entry: a GRP object or an object of another class. -/
inductive CDBObject
  | grp (g : AliGRPObject)
  | other
  deriving DecidableEq, Repr

/-- What the framework hands to the macro: the result of the lookup of
`GRP/GRP/Data` (no entry, or an entry holding a possibly null object), the process
environment, and the status `InitAnalysis` returns for the tasks added. -/
structure World where
  entry : Option (Option CDBObject)
  getenv : String → Option String
  initAnalysis : List Task → Bool

/-- The calls into the analysis manager a run makes, in order. -/
inductive Event
  | addTask (t : Task)
  | initAnalysis
  | startAnalysis
  deriving DecidableEq, Repr

/-- How the macro ends: by one of its `return`s, or by reading through a null pointer. -/
inductive Exit
  | returned
  | nullPointerDereference
  deriving DecidableEq, Repr

/-- A run of the macro: the calls made and the way it ended. -/
structure Run where
  trace : List Event
  exit : Exit
  deriving DecidableEq, Repr

/-- The cast `dynamic_cast<AliGRPObject*>` of the object of an entry. -/
def dynamic_cast : Option CDBObject → Option AliGRPObject
  | some (.grp g) => some g
  | _ => none

/-- Name of the environment switch of the SDD calibration. -/
def sddSwitch : String := "ALIEN_JDL_CPASS0_SDD_CALIBRATION"

/-- The variable `doSDD`: 0, or `atoi` of the switch when it is set. -/
def doSDD (getenv : String → Option String) : Int :=
  match getenv sddSwitch with
  | some v => atoi v
  | none => 0

/-- Modelled from the spec: the `AddTask...` macros of the detector stages are not
among the sources; each wires one stage into the pipeline, as `mgr->AddTask` does for
the cleanGeom task: the task is appended to the tasks wired so far. -/
def AddTask (tasks : List Task) (t : Task) : List Task := tasks ++ [t]

/-- The section "Detector Tasks" of `main_runCalibTrain`, in source order: the tasks
added from the stamp `BeforeTPC` to the TOF task. -/
def detectorTasks (runNumber : Int) (detStr : List Char) (getenv : String → Option String)
    (grpData : AliGRPObject) : List Task :=
  let tasks : List Task := []
  let tasks := if Contains detStr "TPC".toList then AddTask tasks Task.TPCCalib else tasks
  let tasks :=
    if Contains detStr "TRD".toList && Contains detStr "TPC".toList then
      AddTask tasks (Task.TRDCalib runNumber)
    else tasks
  let tasks :=
    if Contains detStr "T0".toList then AddTask tasks (Task.T0Calib runNumber) else tasks
  let tasks :=
    if Contains detStr "ITSSPD".toList then AddTask tasks Task.MeanVertexCalib else tasks
  let tasks :=
    if doSDD getenv > 0 then
      let okTPC := Contains detStr "TPC".toList
      let useTPCcrv := if !okTPC then false else true
      AddTask tasks (Task.SDDCalib
        { useTPCcrv := useTPCcrv
          tofArgument := if Contains detStr "TOF".toList then 20 else -1
          useITSstandaloneTracks := !okTPC
          minPtLowered := grpData.l3CurrentBelow300 })
    else tasks
  let tasks :=
    if Contains detStr "TOF".toList && Contains detStr "TPC".toList then
      AddTask tasks Task.TOFAnalysisTaskCalibPass0
    else tasks
  tasks

/-- The detector list string of a GRP object: the mask goes through `Int_t` and back to
the unsigned 32-bit argument of `ListOfTriggeredDetectors`. -/
def detStrOf (grpData : AliGRPObject) : List Char :=
  ListOfTriggeredDetectors (grpData.detectorMask % 2 ^ 32)

/-- The macro `main_runCalibTrain`. -/
def main_runCalibTrain (w : World) (runNumber : Int) : Run :=
  match w.entry with
  | none => { trace := [], exit := .nullPointerDereference }
  | some object =>
    match dynamic_cast object with
    | none => { trace := [], exit := .returned }
    | some grpData =>
      let detStr := detStrOf grpData
      let tasks := AddTask (detectorTasks runNumber detStr w.getenv grpData) Task.cleanGeom
      let trace := tasks.map Event.addTask ++ [Event.initAnalysis]
      if !w.initAnalysis tasks then { trace := trace, exit := .returned }
      else { trace := trace ++ [Event.startAnalysis], exit := .returned }

/-- The tasks a run added to the manager, in order. -/
def Run.tasks (r : Run) : List Task :=
  r.trace.filterMap fun e => match e with
    | .addTask t => some t
    | _ => none

/-- The stages a run wired into the pipeline, in order. -/
def Run.stages (r : Run) : List Stage := r.tasks.map Task.stage

/-- The plan of a run context: the detector stages activated, in the order added. -/
def plan (runNumber : Int) (grpData : AliGRPObject) (getenv : String → Option String) :
    List Stage :=
  (detectorTasks runNumber (detStrOf grpData) getenv grpData).map Task.stage

/-- A world in which the lookup yields the GRP object `g`. -/
def worldOf (g : AliGRPObject) (getenv : String → Option String)
    (init : List Task → Bool) : World :=
  { entry := some (some (.grp g)), getenv := getenv, initAnalysis := init }

/-- An environment with at most the SDD switch set. -/
def envOf (sdd : Option String) : String → Option String :=
  fun name => if name = sddSwitch then sdd else none

/-! ## The activation table of the specification -/

/-- The fixed registration order of the detector stages. -/
def registrationOrder : List Stage := [.TPC, .TRD, .T0, .MeanVertex, .SDD, .TOF]

/-- The activation condition of each stage as the specification words it, on the
detector set given by `mask` and the value `s` of the SDD switch. -/
def specActivation (mask : Nat) (s : Int) : Stage → Bool
  | .TPC => detectorPresent mask "TPC"
  | .TRD => detectorPresent mask "TRD" && detectorPresent mask "TPC"
  | .T0 => detectorPresent mask "T0"
  | .MeanVertex => detectorPresent mask "ITSSPD"
  | .SDD => decide (s > 0)
  | .TOF => detectorPresent mask "TOF" && detectorPresent mask "TPC"
  | .CleanGeom => false

/-- The plan as the specification describes it: the registration order filtered by
the activation conditions. -/
def specPlan (mask : Nat) (s : Int) : List Stage :=
  registrationOrder.filter (specActivation mask s)

/-- The prerequisite stages the specification declares: the TRD and the TOF stage
need the TPC stage. -/
def specPrerequisites : Stage → List Stage
  | .TRD => [.TPC]
  | .TOF => [.TPC]
  | _ => []

/-! ## Substring tests on the detector list -/

theorem Contains_iff_infix (s pat : List Char) : Contains s pat = true ↔ pat <:+: s := by
  induction s with
  | nil =>
    simp only [Contains, List.isPrefixOf_iff_prefix, List.infix_nil, List.prefix_nil]
  | cons c s ih =>
    simp only [Contains, Bool.or_eq_true, List.isPrefixOf_iff_prefix, ih, List.infix_cons_iff]

/-- A pattern without blank that occurs in `a ++ ' ' :: b` occurs in `a` or in `b`. -/
theorem infix_blank_split (p a b : List Char) (hsp : ' ' ∉ p) :
    p <:+: a ++ ' ' :: b ↔ p <:+: a ∨ p <:+: b := by
  constructor
  · rintro ⟨s, t, h⟩
    rcases List.append_eq_append_iff.1 h with ⟨a', ha, -⟩ | ⟨c', hc, hb⟩
    · exact Or.inl ⟨s, a', ha.symm⟩
    · cases c' with
      | nil => exact Or.inl ⟨s, [], by simpa using hc⟩
      | cons x c'' =>
        simp only [List.cons_append, List.cons.injEq] at hb
        obtain ⟨rfl, hb⟩ := hb
        rcases List.append_eq_append_iff.1 hc with ⟨a', -, hp⟩ | ⟨c, -, hc2⟩
        · exact absurd (by rw [hp]; simp) hsp
        · cases c with
          | nil =>
            simp only [List.nil_append] at hc2
            exact absurd (by rw [← hc2]; simp) hsp
          | cons y c3 =>
            simp only [List.cons_append, List.cons.injEq] at hc2
            exact Or.inr ⟨c3, t, by rw [hb, hc2.2]⟩
  · rintro (h | h)
    · exact h.trans (List.infix_append' [] a _)
    · exact h.trans ⟨a ++ [' '], [], by simp⟩

theorem foldl_eq_segments (b : Nat → Bool) (l : List Nat) (init : List Char) :
    l.foldl (fun acc iDet => if b iDet then acc ++ detectorName iDet ++ [' '] else acc) init
      = init ++ segments b l := by
  induction l generalizing init with
  | nil => simp [segments]
  | cons i l ih =>
    simp only [List.foldl_cons, ih, segments]
    by_cases hb : b i <;> simp [hb]

theorem infix_segments (p : List Char) (hsp : ' ' ∉ p) (b : Nat → Bool)
    (l : List Nat) (tl : List Char) :
    p <:+: segments b l ++ tl ↔ (∃ i ∈ l, b i = true ∧ p <:+: detectorName i) ∨ p <:+: tl := by
  induction l with
  | nil => simp [segments]
  | cons i l ih =>
    by_cases hb : b i
    · have e : segments b (i :: l) ++ tl = detectorName i ++ ' ' :: (segments b l ++ tl) := by
        simp [segments, hb]
      rw [e, infix_blank_split p _ _ hsp, ih]
      simp only [List.mem_cons, exists_eq_or_imp, hb, true_and, or_assoc]
    · have e : segments b (i :: l) ++ tl = segments b l ++ tl := by
        simp [segments, hb]
      rw [e, ih]
      simp only [List.mem_cons, exists_eq_or_imp, hb, false_and, false_or, Bool.false_eq_true]

theorem append_tail_cases (c : Bool) (sg dn : List Char) :
    (let detList := [] ++ sg
     if c = true then detList ++ dn else detList) = sg ++ if c = true then dn else [] := by
  cases c <;> simp

theorem ListOfTriggeredDetectors_eq (m : Nat) :
    ListOfTriggeredDetectors m
      = segments (patternBit m) (List.range (kNDetectors - 1))
        ++ (if patternBit m kHLTId then detectorName (kNDetectors - 1) else []) := by
  unfold ListOfTriggeredDetectors
  generalize patternBit m = b
  rw [foldl_eq_segments]
  generalize b kHLTId = c
  generalize segments b (List.range (kNDetectors - 1)) = sg
  generalize detectorName (kNDetectors - 1) = dn
  exact append_tail_cases c sg dn

/-- A pattern without blank that occurs in exactly one name of the table, that of bit
`k`, occurs in the detector list exactly when bit `k` of the pattern is set. -/
theorem Contains_ListOfTriggeredDetectors (p : List Char) (k : Nat) (m : Nat)
    (hne : p ≠ []) (hsp : ' ' ∉ p) (hk : k < kNDetectors - 1)
    (hname : ∀ i < kNDetectors, Contains (detectorName i) p = decide (i = k)) :
    Contains (ListOfTriggeredDetectors m) p = patternBit m k := by
  have hin : ∀ i < kNDetectors, (p <:+: detectorName i ↔ i = k) := by
    intro i hi
    rw [← Contains_iff_infix, hname i hi]
    simp
  have hlast : ¬ p <:+: (if patternBit m kHLTId then detectorName (kNDetectors - 1) else []) := by
    generalize patternBit m kHLTId = c
    cases c
    · simpa using hne
    · rw [if_pos rfl]
      intro h
      have := (hin _ (Nat.sub_lt (by decide) (by decide))).1 h
      omega
  have hlt : ∀ i, i < kNDetectors - 1 → i < kNDetectors := fun i hi => Nat.lt_of_lt_of_le hi (Nat.sub_le _ _)
  rw [Bool.eq_iff_iff, Contains_iff_infix, ListOfTriggeredDetectors_eq, infix_segments p hsp]
  simp only [hlast, or_false, List.mem_range]
  constructor
  · rintro ⟨i, hi, hb, hp⟩
    rw [hin i (hlt i hi)] at hp
    exact hp ▸ hb
  · intro hb
    exact ⟨k, hk, hb, (hin k (hlt k hk)).2 rfl⟩

theorem Contains_TPC (m : Nat) :
    Contains (ListOfTriggeredDetectors m) "TPC".toList = detectorPresent m "TPC" :=
  Contains_ListOfTriggeredDetectors _ 3 m (by decide) (by decide) (by decide) (by decide)

theorem Contains_TRD (m : Nat) :
    Contains (ListOfTriggeredDetectors m) "TRD".toList = detectorPresent m "TRD" :=
  Contains_ListOfTriggeredDetectors _ 4 m (by decide) (by decide) (by decide) (by decide)

theorem Contains_TOF (m : Nat) :
    Contains (ListOfTriggeredDetectors m) "TOF".toList = detectorPresent m "TOF" :=
  Contains_ListOfTriggeredDetectors _ 5 m (by decide) (by decide) (by decide) (by decide)

theorem Contains_T0 (m : Nat) :
    Contains (ListOfTriggeredDetectors m) "T0".toList = detectorPresent m "T0" :=
  Contains_ListOfTriggeredDetectors _ 13 m (by decide) (by decide) (by decide) (by decide)

theorem Contains_ITSSPD (m : Nat) :
    Contains (ListOfTriggeredDetectors m) "ITSSPD".toList = detectorPresent m "ITSSPD" :=
  Contains_ListOfTriggeredDetectors _ 0 m (by decide) (by decide) (by decide) (by decide)

/-! ## The plan in closed form -/

theorem patternBit_eq_testBit (m i : Nat) : patternBit m i = m.testBit i := by
  unfold patternBit
  rw [Nat.testBit_to_div_mod, Nat.shiftRight_eq_div_pow]

theorem detectorPresent_mod (m : Nat) (name : String)
    (h : fgkDetectorName.indexOf name < 32) :
    detectorPresent (m % 2 ^ 32) name = detectorPresent m name := by
  unfold detectorPresent
  rw [patternBit_eq_testBit, patternBit_eq_testBit, Nat.testBit_mod_two_pow]
  simp [h]

/-- The stages of the tasks added in the detector section, by the six conditions. -/
theorem stages_of_conditions (run : Int) (detStr : List Char) (env : String → Option String)
    (g : AliGRPObject) (tpc trd t0 spd tof : Bool)
    (h1 : Contains detStr "TPC".toList = tpc) (h2 : Contains detStr "TRD".toList = trd)
    (h3 : Contains detStr "T0".toList = t0) (h4 : Contains detStr "ITSSPD".toList = spd)
    (h5 : Contains detStr "TOF".toList = tof) :
    (detectorTasks run detStr env g).map Task.stage
      = registrationOrder.filter (fun s => match s with
          | .TPC => tpc
          | .TRD => trd && tpc
          | .T0 => t0
          | .MeanVertex => spd
          | .SDD => decide (doSDD env > 0)
          | .TOF => tof && tpc
          | .CleanGeom => false) := by
  unfold detectorTasks
  rw [h1, h2, h3, h4, h5]
  generalize doSDD env = d
  by_cases hd : d > 0 <;> cases tpc <;> cases trd <;> cases t0 <;> cases spd <;> cases tof <;>
    simp [registrationOrder, List.filter, hd, Task.stage, AddTask]

theorem plan_eq_specPlan (run : Int) (g : AliGRPObject) (env : String → Option String) :
    plan run g env = specPlan g.detectorMask (doSDD env) := by
  unfold plan specPlan
  rw [stages_of_conditions run (detStrOf g) env g _ _ _ _ _ rfl rfl rfl rfl rfl]
  unfold detStrOf
  rw [Contains_TPC, Contains_TRD, Contains_T0, Contains_ITSSPD, Contains_TOF,
    detectorPresent_mod _ _ (by decide), detectorPresent_mod _ _ (by decide),
    detectorPresent_mod _ _ (by decide), detectorPresent_mod _ _ (by decide),
    detectorPresent_mod _ _ (by decide)]
  rfl

/-! ## Shared facts about the plan and the run -/

theorem mem_plan_iff (run : Int) (g : AliGRPObject) (env : String → Option String) (s : Stage) :
    s ∈ plan run g env
      ↔ s ∈ registrationOrder ∧ specActivation g.detectorMask (doSDD env) s = true := by
  rw [plan_eq_specPlan, specPlan, List.mem_filter]

theorem cleanGeom_not_mem_plan (run : Int) (g : AliGRPObject) (env : String → Option String) :
    Stage.CleanGeom ∉ plan run g env := by
  rw [mem_plan_iff]
  rintro ⟨-, h⟩
  simp [specActivation] at h

theorem filterMap_addTask (ts : List Task) (rest : List Event)
    (hrest : ∀ e ∈ rest, ∀ t, e ≠ Event.addTask t) :
    (ts.map Event.addTask ++ rest).filterMap
      (fun e => match e with
        | .addTask t => some t
        | _ => none) = ts := by
  induction ts with
  | nil =>
    induction rest with
    | nil => rfl
    | cons e rest ih =>
      have ih2 := ih (fun e he => hrest e (List.mem_cons_of_mem _ he))
      cases e with
      | addTask t => exact absurd rfl (hrest _ (List.mem_cons_self _ _) t)
      | initAnalysis => simpa [List.filterMap_cons] using ih2
      | startAnalysis => simpa [List.filterMap_cons] using ih2
  | cons t ts ih => simpa [List.filterMap_cons] using ih

/-- The run of the macro when the lookup yields a GRP object. -/
theorem main_worldOf (g : AliGRPObject) (env : String → Option String)
    (init : List Task → Bool) (run : Int) :
    main_runCalibTrain (worldOf g env init) run
      = { trace := (detectorTasks run (detStrOf g) env g ++ [Task.cleanGeom]).map Event.addTask
            ++ Event.initAnalysis ::
              (if init (detectorTasks run (detStrOf g) env g ++ [Task.cleanGeom]) then
                [Event.startAnalysis] else [])
          exit := .returned } := by
  simp only [main_runCalibTrain, worldOf, dynamic_cast, AddTask]
  cases init (detectorTasks run (detStrOf g) env g ++ [Task.cleanGeom]) <;> simp

theorem tasks_main_worldOf (g : AliGRPObject) (env : String → Option String)
    (init : List Task → Bool) (run : Int) :
    (main_runCalibTrain (worldOf g env init) run).tasks
      = detectorTasks run (detStrOf g) env g ++ [Task.cleanGeom] := by
  rw [main_worldOf, Run.tasks]
  apply filterMap_addTask
  intro e he t
  generalize init (detectorTasks run (detStrOf g) env g ++ [Task.cleanGeom]) = c at he
  cases c <;> simp at he <;> rcases he with rfl | rfl <;> simp

theorem stages_main_worldOf (g : AliGRPObject) (env : String → Option String)
    (init : List Task → Bool) (run : Int) :
    (main_runCalibTrain (worldOf g env init) run).stages = plan run g env ++ [Stage.CleanGeom] := by
  rw [Run.stages, tasks_main_worldOf, plan, List.map_append]
  rfl

theorem doSDD_pos_iff (env : String → Option String) :
    doSDD env > 0 ↔ ∃ v, env sddSwitch = some v ∧ atoi v > 0 := by
  unfold doSDD
  cases h : env sddSwitch with
  | none => simp
  | some v => simp

theorem doSDD_congr (env env' : String → Option String) (h : env sddSwitch = env' sddSwitch) :
    doSDD env = doSDD env' := by
  unfold doSDD
  rw [h]

theorem detectorPresent_of_subset (m' m : Nat) (name : String) (hsub : m' &&& m = m')
    (h : detectorPresent m' name = true) : detectorPresent m name = true := by
  unfold detectorPresent at *
  rw [patternBit_eq_testBit] at *
  rw [← hsub, Nat.testBit_and, Bool.and_eq_true] at h
  exact h.2

theorem specActivation_mono (m' m : Nat) (d : Int) (hsub : m' &&& m = m') (s : Stage)
    (h : specActivation m' d s = true) : specActivation m d s = true := by
  cases s <;> simp only [specActivation, Bool.and_eq_true] at h ⊢
  · exact detectorPresent_of_subset _ _ _ hsub h
  · exact ⟨detectorPresent_of_subset _ _ _ hsub h.1, detectorPresent_of_subset _ _ _ hsub h.2⟩
  · exact detectorPresent_of_subset _ _ _ hsub h
  · exact detectorPresent_of_subset _ _ _ hsub h
  · exact h
  · exact ⟨detectorPresent_of_subset _ _ _ hsub h.1, detectorPresent_of_subset _ _ _ hsub h.2⟩
  · exact h

theorem plan_split_TOF (run : Int) (g : AliGRPObject) (env : String → Option String)
    (h : Stage.TOF ∈ plan run g env) :
    ∃ front, Stage.TOF ∉ front ∧ plan run g env = front ++ [Stage.TOF] := by
  rw [mem_plan_iff] at h
  refine ⟨[Stage.TPC, .TRD, .T0, .MeanVertex, .SDD].filter
    (specActivation g.detectorMask (doSDD env)), ?_, ?_⟩
  · intro hmem
    have := (List.mem_filter.1 hmem).1
    revert this
    decide
  · rw [plan_eq_specPlan, specPlan]
    have e : registrationOrder = [Stage.TPC, .TRD, .T0, .MeanVertex, .SDD] ++ [Stage.TOF] := rfl
    rw [e, List.filter_append]
    congr 1
    simp [List.filter, h.2]

theorem detectorTasks_nil_of_plan_nil (run : Int) (g : AliGRPObject)
    (env : String → Option String) (h : plan run g env = []) :
    detectorTasks run (detStrOf g) env g = [] := by
  unfold plan at h
  exact List.map_eq_nil_iff.1 h

theorem cleanGeom_not_mem_detectorTasks (run : Int) (g : AliGRPObject)
    (env : String → Option String) : Task.cleanGeom ∉ detectorTasks run (detStrOf g) env g := by
  intro h
  apply cleanGeom_not_mem_plan run g env
  unfold plan
  exact List.mem_map.2 ⟨Task.cleanGeom, h, rfl⟩

theorem count_startAnalysis_map (ts : List Task) :
    (ts.map Event.addTask).count Event.startAnalysis = 0 := by
  rw [List.count_eq_zero]
  intro h
  obtain ⟨t, -, ht⟩ := List.mem_map.1 h
  cases ht

theorem count_addTask_map (ts : List Task) (t : Task) :
    (ts.map Event.addTask).count (Event.addTask t) = ts.count t := by
  induction ts with
  | nil => rfl
  | cons u ts ih =>
    by_cases hu : u = t
    · subst hu
      simp [ih]
    · have hne : Event.addTask u ≠ Event.addTask t := fun h => hu (Event.addTask.inj h)
      simp [List.count_cons, hu, hne, ih]

theorem specActivation_switch_irrelevant (m : Nat) (d d' : Int) (t : Stage)
    (ht : t ≠ Stage.SDD) : specActivation m d t = specActivation m d' t := by
  cases t <;> first | rfl | exact absurd rfl ht

theorem mem_plan_of_detector_condition (run : Int) (g : AliGRPObject)
    (env : String → Option String) (s : Stage) (hs : s ≠ Stage.SDD)
    (hact : specActivation g.detectorMask 0 s = true) : s ∈ plan run g env := by
  rw [mem_plan_iff, specActivation_switch_irrelevant _ _ 0 s hs]
  refine ⟨?_, hact⟩
  cases s <;> first | decide | exact absurd rfl hs | simp [specActivation] at hact

/-! ## The claims -/

/-- C10: for every run number, GRP object and environment, the sequence of detector
stages added by `main_runCalibTrain` is the fixed list TPC, TRD, T0, MeanVertex, SDD, TOF
filtered, in that order, by the conditions TPC present; TRD and TPC present; T0 present;
ITSSPD present; `doSDD > 0`; TOF and TPC present.  Hence the plan has no duplicate and
is a subsequence of the registration order. -/
theorem C10_exact_activation_table (run : Int) (g : AliGRPObject)
    (env : String → Option String) :
    plan run g env = registrationOrder.filter (specActivation g.detectorMask (doSDD env))
      ∧ (plan run g env).Nodup
      ∧ (plan run g env).Sublist registrationOrder := by
  rw [plan_eq_specPlan, specPlan]
  refine ⟨rfl, ?_, List.filter_sublist _⟩
  exact List.Nodup.sublist (List.filter_sublist _) (by decide)

/-- C2: every stage of the plan has its prerequisite stages in the plan; in particular
the TPC stage is in every plan that holds the TRD stage or the TOF stage. -/
theorem C2_prerequisite_closure (run : Int) (g : AliGRPObject) (env : String → Option String)
    (s : Stage) (hs : s ∈ plan run g env) :
    (∀ p ∈ specPrerequisites s, p ∈ plan run g env)
      ∧ (s = Stage.TRD ∨ s = Stage.TOF → Stage.TPC ∈ plan run g env) := by
  rw [mem_plan_iff] at hs
  have key : s = Stage.TRD ∨ s = Stage.TOF → Stage.TPC ∈ plan run g env := by
    rintro (rfl | rfl) <;>
    · rw [mem_plan_iff]
      simp only [specActivation, Bool.and_eq_true] at hs ⊢
      exact ⟨by decide, hs.2.2⟩
  refine ⟨?_, key⟩
  intro p hp
  cases s <;> simp only [specPrerequisites, List.mem_singleton, List.not_mem_nil] at hp
  · exact hp ▸ key (Or.inl rfl)
  · exact hp ▸ key (Or.inr rfl)

theorem C2_prerequisite_closure_witness :
    Stage.TOF ∈ plan 0 { detectorMask := 40, l3CurrentBelow300 := false } (envOf none)
      ∧ ((∀ p ∈ specPrerequisites Stage.TOF,
            p ∈ plan 0 { detectorMask := 40, l3CurrentBelow300 := false } (envOf none))
        ∧ (Stage.TOF = Stage.TRD ∨ Stage.TOF = Stage.TOF →
            Stage.TPC ∈ plan 0 { detectorMask := 40, l3CurrentBelow300 := false } (envOf none))) :=
  ⟨by decide, C2_prerequisite_closure 0 _ _ Stage.TOF (by decide)⟩

/-- C3: for a fixed run number and environment, when the detectors of `g'` are among
the detectors of `g`, the plan for `g'` is at most as long as the plan for `g`, every
stage of the plan for `g'` is in the plan for `g`, and the former is a subsequence of
the latter. -/
theorem C3_monotonic_pruning (run : Int) (g g' : AliGRPObject) (env : String → Option String)
    (hsub : g'.detectorMask &&& g.detectorMask = g'.detectorMask) :
    (plan run g' env).length ≤ (plan run g env).length
      ∧ (∀ s ∈ plan run g' env, s ∈ plan run g env)
      ∧ (plan run g' env).Sublist (plan run g env) := by
  have hsl : (plan run g' env).Sublist (plan run g env) := by
    rw [plan_eq_specPlan, plan_eq_specPlan, specPlan, specPlan]
    exact List.monotone_filter_right _ (fun s hs => specActivation_mono _ _ _ hsub s hs)
  exact ⟨hsl.length_le, fun s hs => hsl.subset hs, hsl⟩

theorem C3_monotonic_pruning_witness :
    (8 : Nat) &&& 40 = 8
      ∧ ((plan 0 { detectorMask := 8, l3CurrentBelow300 := false } (envOf none)).length
          ≤ (plan 0 { detectorMask := 40, l3CurrentBelow300 := false } (envOf none)).length
        ∧ (∀ s ∈ plan 0 { detectorMask := 8, l3CurrentBelow300 := false } (envOf none),
            s ∈ plan 0 { detectorMask := 40, l3CurrentBelow300 := false } (envOf none))
        ∧ (plan 0 { detectorMask := 8, l3CurrentBelow300 := false } (envOf none)).Sublist
            (plan 0 { detectorMask := 40, l3CurrentBelow300 := false } (envOf none))) :=
  ⟨by decide, C3_monotonic_pruning 0 _ _ _ (by decide)⟩

/-- C4: the SDD stage is in the plan exactly when the switch
`ALIEN_JDL_CPASS0_SDD_CALIBRATION` is set and `atoi` of its value is greater than 0,
whatever the detector mask is: it is left out when the switch is absent or its value is
`0`, `-1` or `abc`, and with the value `1` and the empty mask the plan is the SDD
stage alone. -/
theorem C4_sdd_switch (run : Int) (g : AliGRPObject) (env : String → Option String) :
    (Stage.SDD ∈ plan run g env ↔ ∃ v, env sddSwitch = some v ∧ atoi v > 0)
      ∧ Stage.SDD ∉ plan run g (envOf none)
      ∧ Stage.SDD ∉ plan run g (envOf (some "0"))
      ∧ Stage.SDD ∉ plan run g (envOf (some "-1"))
      ∧ Stage.SDD ∉ plan run g (envOf (some "abc"))
      ∧ plan run { detectorMask := 0, l3CurrentBelow300 := g.l3CurrentBelow300 }
          (envOf (some "1")) = [Stage.SDD] := by
  have hiff : ∀ e : String → Option String,
      Stage.SDD ∈ plan run g e ↔ ∃ v, e sddSwitch = some v ∧ atoi v > 0 := by
    intro e
    rw [mem_plan_iff, ← doSDD_pos_iff]
    simp [specActivation, registrationOrder]
  refine ⟨hiff env, ?_, ?_, ?_, ?_, ?_⟩
  · rw [hiff]; simp [envOf]
  · rw [hiff]; simp only [envOf, if_true, Option.some.injEq, exists_eq_left']; decide
  · rw [hiff]; simp only [envOf, if_true, Option.some.injEq, exists_eq_left']; decide
  · rw [hiff]; simp only [envOf, if_true, Option.some.injEq, exists_eq_left']; decide
  · rw [plan_eq_specPlan]
    show specPlan 0 (doSDD (envOf (some "1"))) = [Stage.SDD]
    decide

/-- C1: for every run number, detector mask and environment, whenever the TOF stage is
activated it is the last element of the plan: the plan is some stages without TOF
followed by TOF, so no stage of the plan comes after it. -/
theorem C1_terminal_placement (run : Int) (g : AliGRPObject)
    (env : String → Option String) (h : Stage.TOF ∈ plan run g env) :
    (plan run g env).getLast? = some Stage.TOF
      ∧ ∃ front, Stage.TOF ∉ front ∧ plan run g env = front ++ [Stage.TOF] := by
  obtain ⟨front, hf, e⟩ := plan_split_TOF run g env h
  exact ⟨by rw [e]; simp, front, hf, e⟩

theorem C1_terminal_placement_witness :
    plan 0 { detectorMask := 40, l3CurrentBelow300 := false } (envOf none)
        = [Stage.TPC, Stage.TOF]
      ∧ Stage.TOF ∈ plan 0 { detectorMask := 40, l3CurrentBelow300 := false } (envOf none)
      ∧ ((plan 0 { detectorMask := 40, l3CurrentBelow300 := false } (envOf none)).getLast?
          = some Stage.TOF
        ∧ ∃ front, Stage.TOF ∉ front
            ∧ plan 0 { detectorMask := 40, l3CurrentBelow300 := false } (envOf none)
                = front ++ [Stage.TOF]) :=
  ⟨by decide, by decide, C1_terminal_placement 0 _ _ (by decide)⟩

/-- C5: with the all-zero detector mask and the switch unset the plan is empty, and the
macro still adds the cleanGeom task, calls `InitAnalysis`, and calls `StartAnalysis`
when the initialisation succeeds; it ends by a normal return. -/
theorem C5_empty_plan (run : Int) (l3 : Bool) (env : String → Option String)
    (init : List Task → Bool) (henv : env sddSwitch = none) :
    plan run { detectorMask := 0, l3CurrentBelow300 := l3 } env = []
      ∧ main_runCalibTrain (worldOf { detectorMask := 0, l3CurrentBelow300 := l3 } env init) run
          = { trace := Event.addTask Task.cleanGeom :: Event.initAnalysis ::
                (if init [Task.cleanGeom] then [Event.startAnalysis] else [])
              exit := Exit.returned } := by
  have hd : doSDD env = 0 := by
    unfold doSDD
    rw [henv]
  have hp : plan run { detectorMask := 0, l3CurrentBelow300 := l3 } env = [] := by
    rw [plan_eq_specPlan, hd]
    show specPlan 0 0 = []
    decide
  refine ⟨hp, ?_⟩
  rw [main_worldOf, detectorTasks_nil_of_plan_nil run _ env hp]
  rfl

theorem C5_empty_plan_witness :
    envOf none sddSwitch = none
      ∧ (plan 7 { detectorMask := 0, l3CurrentBelow300 := false } (envOf none) = []
        ∧ main_runCalibTrain
            (worldOf { detectorMask := 0, l3CurrentBelow300 := false } (envOf none)
              (fun _ => true)) 7
          = { trace := Event.addTask Task.cleanGeom :: Event.initAnalysis ::
                (if (fun _ => true) [Task.cleanGeom] then [Event.startAnalysis] else [])
              exit := Exit.returned }) :=
  ⟨by decide, C5_empty_plan 7 false (envOf none) (fun _ => true) (by decide)⟩

/-- C6: two contexts that agree on the presence of the detectors TPC, TRD, T0, ITSSPD
and TOF and on the value of the switch `ALIEN_JDL_CPASS0_SDD_CALIBRATION` have the same
plan, whatever their run numbers, their other detector bits, their L3 currents and the
other names of their environments are. -/
theorem C6_plan_noninterference (run run' : Int) (g g' : AliGRPObject)
    (env env' : String → Option String)
    (hTPC : detectorPresent g.detectorMask "TPC" = detectorPresent g'.detectorMask "TPC")
    (hTRD : detectorPresent g.detectorMask "TRD" = detectorPresent g'.detectorMask "TRD")
    (hT0 : detectorPresent g.detectorMask "T0" = detectorPresent g'.detectorMask "T0")
    (hSPD : detectorPresent g.detectorMask "ITSSPD" = detectorPresent g'.detectorMask "ITSSPD")
    (hTOF : detectorPresent g.detectorMask "TOF" = detectorPresent g'.detectorMask "TOF")
    (hsw : env sddSwitch = env' sddSwitch) :
    plan run g env = plan run' g' env' := by
  rw [plan_eq_specPlan, plan_eq_specPlan, specPlan, specPlan, doSDD_congr env env' hsw]
  congr 1
  funext s
  cases s <;> simp only [specActivation, hTPC, hTRD, hT0, hSPD, hTOF]

theorem C6_plan_noninterference_witness :
    plan 1 { detectorMask := 40, l3CurrentBelow300 := false } (envOf (some "1"))
      = plan 2 { detectorMask := 1048680, l3CurrentBelow300 := true }
          (fun name => if name = sddSwitch then some "1" else some "yes") :=
  C6_plan_noninterference 1 2 _ _ _ _ (by decide) (by decide) (by decide) (by decide)
    (by decide) (by decide)

/-- C7 (as stated, refuted): there is no environment under which a stage other than
SDD whose detector condition holds is left out of the plan; in particular none leaves
out the TPC stage when the detector mask has the TPC. -/
theorem C7_no_environment_forces_a_stage_off :
    (¬ ∃ (env : String → Option String) (run : Int) (g : AliGRPObject) (s : Stage),
        s ≠ Stage.SDD ∧ specActivation g.detectorMask 0 s = true ∧ s ∉ plan run g env)
      ∧ ¬ ∃ (env : String → Option String) (run : Int) (g : AliGRPObject),
          detectorPresent g.detectorMask "TPC" = true ∧ Stage.TPC ∉ plan run g env := by
  constructor
  · rintro ⟨env, run, g, s, hs, hact, hn⟩
    exact hn (mem_plan_of_detector_condition run g env s hs hact)
  · rintro ⟨env, run, g, hp, hn⟩
    exact hn (mem_plan_of_detector_condition run g env Stage.TPC (by decide) hp)

/-- C7 (amended): the environment forces no stage off.  A stage other than SDD whose
detector condition holds is in the plan under every environment, and the plans of a
context under two environments hold the same stages other than SDD. -/
theorem C7_environment_only_adds_SDD (run : Int) (g : AliGRPObject)
    (env : String → Option String) (s : Stage) (hs : s ≠ Stage.SDD)
    (hact : specActivation g.detectorMask 0 s = true) :
    s ∈ plan run g env
      ∧ ∀ (env' : String → Option String) (t : Stage), t ≠ Stage.SDD →
          (t ∈ plan run g env ↔ t ∈ plan run g env') := by
  refine ⟨mem_plan_of_detector_condition run g env s hs hact, ?_⟩
  intro env' t ht
  rw [mem_plan_iff, mem_plan_iff,
    specActivation_switch_irrelevant g.detectorMask (doSDD env) (doSDD env') t ht]

theorem C7_environment_only_adds_SDD_witness :
    Stage.TPC ≠ Stage.SDD
      ∧ specActivation 8 0 Stage.TPC = true
      ∧ (Stage.TPC ∈ plan 0 { detectorMask := 8, l3CurrentBelow300 := false } (envOf (some "0"))
        ∧ ∀ (env' : String → Option String) (t : Stage), t ≠ Stage.SDD →
            (t ∈ plan 0 { detectorMask := 8, l3CurrentBelow300 := false } (envOf (some "0"))
              ↔ t ∈ plan 0 { detectorMask := 8, l3CurrentBelow300 := false } env')) :=
  ⟨by decide, by decide,
    C7_environment_only_adds_SDD 0 { detectorMask := 8, l3CurrentBelow300 := false }
      (envOf (some "0")) Stage.TPC (by decide) (by decide)⟩

/-- C8 (the code at the failing input, and the cases where the claim holds): when the
lookup yields no entry the macro reads the object through the null entry and does not
return normally.  When the entry holds no object or an object that is not a GRP object,
the macro returns without adding a task or starting the analysis; when the GRP object
is obtained, it returns normally and calls `StartAnalysis` once if `InitAnalysis`
succeeds and not at all if it fails. -/
theorem C8_early_termination (env : String → Option String) (init : List Task → Bool)
    (run : Int) :
    main_runCalibTrain { entry := none, getenv := env, initAnalysis := init } run
        = { trace := [], exit := Exit.nullPointerDereference }
      ∧ main_runCalibTrain { entry := some none, getenv := env, initAnalysis := init } run
          = { trace := [], exit := Exit.returned }
      ∧ main_runCalibTrain
          { entry := some (some CDBObject.other), getenv := env, initAnalysis := init } run
          = { trace := [], exit := Exit.returned }
      ∧ ∀ g : AliGRPObject,
          (main_runCalibTrain (worldOf g env init) run).exit = Exit.returned
            ∧ (main_runCalibTrain (worldOf g env init) run).trace.count Event.startAnalysis
                = if init (main_runCalibTrain (worldOf g env init) run).tasks then 1 else 0 := by
  refine ⟨rfl, rfl, rfl, fun g => ?_⟩
  rw [tasks_main_worldOf, main_worldOf]
  refine ⟨rfl, ?_⟩
  simp only [List.count_append, count_startAnalysis_map]
  cases init (detectorTasks run (detStrOf g) env g ++ [Task.cleanGeom]) <;> decide

/-- C9: whenever the lookup yields a GRP object, the macro adds the cleanGeom task
exactly once, right after the tasks of the detector stages of the plan and right before
the call of `InitAnalysis`; the stages added are the plan followed by cleanGeom, also
when the plan is empty. -/
theorem C9_cleanGeom_always_wired (run : Int) (g : AliGRPObject)
    (env : String → Option String) (init : List Task → Bool) :
    (∃ rest, (main_runCalibTrain (worldOf g env init) run).trace
        = (detectorTasks run (detStrOf g) env g).map Event.addTask
          ++ Event.addTask Task.cleanGeom :: Event.initAnalysis :: rest)
      ∧ (main_runCalibTrain (worldOf g env init) run).trace.count (Event.addTask Task.cleanGeom) = 1
      ∧ Task.cleanGeom ∉ detectorTasks run (detStrOf g) env g
      ∧ (main_runCalibTrain (worldOf g env init) run).stages = plan run g env ++ [Stage.CleanGeom]
      ∧ (main_runCalibTrain
          (worldOf { detectorMask := 0, l3CurrentBelow300 := g.l3CurrentBelow300 }
            (fun _ => none) init) run).tasks = [Task.cleanGeom] := by
  refine ⟨?_, ?_, cleanGeom_not_mem_detectorTasks run g env, stages_main_worldOf g env init run, ?_⟩
  · rw [main_worldOf]
    exact ⟨if init (detectorTasks run (detStrOf g) env g ++ [Task.cleanGeom]) then
      [Event.startAnalysis] else [], by simp⟩
  · rw [main_worldOf]
    have h0 := List.count_eq_zero.2 (cleanGeom_not_mem_detectorTasks run g env)
    simp only [List.map_append, List.count_append, count_addTask_map, h0]
    cases init (detectorTasks run (detStrOf g) env g ++ [Task.cleanGeom]) <;> decide
  · rw [tasks_main_worldOf]
    have hp : plan run { detectorMask := 0, l3CurrentBelow300 := g.l3CurrentBelow300 }
        (fun _ => none) = [] := by
      rw [plan_eq_specPlan]
      show specPlan 0 (doSDD (fun _ => none)) = []
      decide
    rw [detectorTasks_nil_of_plan_nil run _ _ hp]
    rfl

end CalibTrain
